import Mathlib

/-!
Verification of the REANA developer helper CLI name-resolution core
(`reana/cli.py`): the repository registry, the component-name
abbreviation codec (`shorten_component_name`,
`find_standard_component_name`) and the component selector
(`select_components`).

Modelling conventions:
- Python strings are Lean `String` values.
- Python `component.split("-")` is modelled by `pysplit`, an explicit
  implementation of the Python semantics of splitting on a single-char
  separator (adjacent separators yield empty parts, the empty string
  splits to one empty part).
- A Python function that can raise is modelled with `Option` (for
  `IndexError` inside `shorten_component_name`) or `Except String`
  (the raised message) where the message text matters.
- The Python `set` accumulated by `select_components` is modelled as a
  duplicate-free list built by `setAdd`; all properties stated about it
  are insensitive to element order, matching the unspecified iteration
  order of a Python set.
- Output printed by `display_message` (the warning side-channel of
  `select_components`) is returned as a list of the displayed lines, in
  emission order.
-/

namespace Reana

instance {ε α : Type} [DecidableEq ε] [DecidableEq α] : DecidableEq (Except ε α) := fun a b =>
  match a, b with
  | .ok x, .ok y =>
    if h : x = y then .isTrue (by rw [h]) else .isFalse (fun hc => h (Except.ok.inj hc))
  | .error x, .error y =>
    if h : x = y then .isTrue (by rw [h]) else .isFalse (fun hc => h (Except.error.inj hc))
  | .ok _, .error _ => .isFalse (fun hc => Except.noConfusion hc)
  | .error _, .ok _ => .isFalse (fun hc => Except.noConfusion hc)

/-- The registry of every known REANA repository (`REPO_LIST_ALL` in
`reana/cli.py`, lines 35-62). -/
def REPO_LIST_ALL : List String := [
  "reana",
  "reana-client",
  "reana-cluster",
  "reana-commons",
  "reana-demo-alice-lego-train-test-run",
  "reana-demo-atlas-recast",
  "reana-demo-bsm-search",
  "reana-demo-cms-h4l",
  "reana-demo-helloworld",
  "reana-demo-lhcb-d2pimumu",
  "reana-demo-root6-roofit",
  "reana-demo-worldpopulation",
  "reana-env-aliphysics",
  "reana-env-jupyter",
  "reana-env-root6",
  "reana-job-controller",
  "reana-message-broker",
  "reana-server",
  "reana-ui",
  "reana-workflow-commons",
  "reana-workflow-controller",
  "reana-workflow-engine-cwl",
  "reana-workflow-engine-serial",
  "reana-workflow-engine-yadage",
  "reana-workflow-monitor",
  "reana.io"]

/-- The registry subset forming one deployable cluster
(`REPO_LIST_CLUSTER` in `reana/cli.py`, lines 65-76). -/
def REPO_LIST_CLUSTER : List String := [
  "reana-commons",
  "reana-job-controller",
  "reana-message-broker",
  "reana-server",
  "reana-workflow-commons",
  "reana-workflow-controller",
  "reana-workflow-engine-cwl",
  "reana-workflow-engine-serial",
  "reana-workflow-engine-yadage",
  "reana-workflow-monitor"]

/-- The hyphen separator character used by the component-name codec. -/
def hyphen : Char := Char.ofNat 45

/-- Python semantics of splitting a character list on the separator
character: adjacent separators produce empty parts and the empty input
produces the single-element list of one empty part. -/
def pySplitChar (sep : Char) : List Char → List (List Char)
  | [] => [[]]
  | c :: rest =>
    if c = sep then [] :: pySplitChar sep rest
    else
      match pySplitChar sep rest with
      | [] => [[c]]
      | p :: ps => (c :: p) :: ps

/-- Python `component.split("-")` on Lean strings. -/
def pysplit (component : String) : List String :=
  (pySplitChar hyphen component.toList).map List.asString

/-- The accumulation loop of `shorten_component_name` (`reana/cli.py`,
lines 182-183): for every part before the last, append its first
character and a hyphen to the accumulator.  Python `part[0]` raises
`IndexError` when the part is empty, modelled by `none`. -/
def shorten_loop : List String → String → Option String
  | [], short_name => some short_name
  | part :: rest, short_name =>
    match part.toList.head? with
    | none => none
    | some c => shorten_loop rest (short_name ++ String.singleton c ++ "-")

/-- `shorten_component_name` from `reana/cli.py`, lines 169-185: split
the name on hyphens, abbreviate every part except the last to its first
character, keep the last part unmodified.  `none` models the
`IndexError` raised by `part[0]` on an empty non-last part. -/
def shorten_component_name (component : String) : Option String := do
  let parts := pysplit component
  let short_name ← shorten_loop parts.dropLast ""
  let last ← parts.getLast?
  return short_name ++ last

/-- The message of the `IndexError` that Python raises on indexing an
empty string. -/
def indexErrorMsg : String := "string index out of range"

/-- The message of the exception raised by
`find_standard_component_name` (`reana/cli.py`, lines 208-209).  The
source formats the string literal "short_component_name" (quoted in the
Python code), not the variable of that name, so the message is this
fixed text for every input. -/
def cannotBeUniquelyMapped : String :=
  "Component name short_component_name cannot be uniquely mapped."

/-- The scanning loop of `find_standard_component_name` (`reana/cli.py`,
lines 201-205): walk the registry in order, appending to `output` every
component whose abbreviation equals the requested short name.  An
`IndexError` escaping `shorten_component_name` propagates. -/
def find_loop (short_component_name : String) : List String → List String → Except String (List String)
  | [], output => .ok output
  | component :: rest, output =>
    match shorten_component_name component with
    | none => .error indexErrorMsg
    | some component_short_name =>
      if component_short_name = short_component_name then
        find_loop short_component_name rest (output ++ [component])
      else
        find_loop short_component_name rest output

/-- `find_standard_component_name` from `reana/cli.py`, lines 188-209:
collect all registry entries whose abbreviation equals the input; if
exactly one was collected return it (`output[0]`), otherwise raise.
The singleton match is exactly the Python test `len(output) == 1`. -/
def find_standard_component_name (short_component_name : String) : Except String String := do
  let output ← find_loop short_component_name REPO_LIST_ALL []
  match output with
  | [o] => return o
  | _ => Except.error cannotBeUniquelyMapped

/-- Python `set.add` on the duplicate-free list modelling the `output`
set of `select_components`. -/
def setAdd (output : List String) (repo : String) : List String :=
  if repo ∈ output then output else output ++ [repo]

/-- The warning line printed for an unknown component: the message of
`select_components` (`reana/cli.py`, lines 286-287) as displayed by
`display_message` with its default empty component field. -/
def ignoringUnknownMsg (component : String) : String :=
  "[] Ignoring unknown component " ++ component ++ "."

/-- The token loop of `select_components` (`reana/cli.py`, lines
270-287), processing tokens in order: expand "ALL" and "CLUSTER", map
"." to the current working directory basename, keep registry members,
resolve known abbreviations through `find_standard_component_name`
(whose exception would propagate), and warn on anything else. -/
def select_loop (cwd : String) (short_component_names : List (Option String)) :
    List String → List String → List String → Except String (List String × List String)
  | [], output, warnings => .ok (output, warnings)
  | component :: rest, output, warnings =>
    if component = "ALL" then
      select_loop cwd short_component_names rest (REPO_LIST_ALL.foldl setAdd output) warnings
    else if component = "CLUSTER" then
      select_loop cwd short_component_names rest (REPO_LIST_CLUSTER.foldl setAdd output) warnings
    else if component = "." then
      select_loop cwd short_component_names rest (setAdd output cwd) warnings
    else if component ∈ REPO_LIST_ALL then
      select_loop cwd short_component_names rest (setAdd output component) warnings
    else if (some component) ∈ short_component_names then
      match find_standard_component_name component with
      | .error e => .error e
      | .ok component_standard_name =>
        select_loop cwd short_component_names rest (setAdd output component_standard_name) warnings
    else
      select_loop cwd short_component_names rest output (warnings ++ [ignoringUnknownMsg component])

/-- `select_components` from `reana/cli.py`, lines 248-288.  The
current working directory basename read by the "." branch is passed in
as `cwd`; the result carries the accumulated component set (as a
duplicate-free list) together with the emitted warning lines. -/
def select_components (components : List String) (cwd : String) :
    Except String (List String × List String) :=
  select_loop cwd (REPO_LIST_ALL.map shorten_component_name) components [] []

/-- The abbreviation rule in the words of the specification (section
4.1): split on hyphens; for every part except the last take its first
character followed by a hyphen; append the unmodified last part.  A
part with no first character has no abbreviation (`none`), matching the
partiality of the rule. -/
def abbreviate_spec_parts : List String → Option String
  | [] => none
  | [last] => some last
  | part :: rest =>
    match part.toList.head?, abbreviate_spec_parts rest with
    | some c, some tail => some (String.singleton c ++ "-" ++ tail)
    | _, _ => none

/-- The specification-worded abbreviation function, to be compared with
the source-translated `shorten_component_name`. -/
def abbreviate_spec (name : String) : Option String :=
  abbreviate_spec_parts (pysplit name)

lemma shorten_eq_bind (component : String) :
    shorten_component_name component =
      (shorten_loop (pysplit component).dropLast "").bind (fun short_name =>
        ((pysplit component).getLast?).bind (fun last => some (short_name ++ last))) := rfl

lemma shorten_loop_abbrev (parts : List String) : ∀ acc : String,
    (shorten_loop parts.dropLast acc).bind (fun short_name =>
      (parts.getLast?).bind (fun last => some (short_name ++ last)))
    = (abbreviate_spec_parts parts).map (fun t => acc ++ t) := by
  induction parts with
  | nil => intro acc; simp [shorten_loop, abbreviate_spec_parts]
  | cons p rest ih =>
    intro acc
    cases rest with
    | nil => simp [shorten_loop, abbreviate_spec_parts]
    | cons q t =>
      have hdrop : (p :: q :: t).dropLast = p :: (q :: t).dropLast := rfl
      have hlast : (p :: q :: t).getLast? = (q :: t).getLast? := rfl
      rw [hdrop, hlast]
      cases hc : p.data.head? with
      | none => simp [shorten_loop, abbreviate_spec_parts, String.toList, hc]
      | some c =>
        have hloop : shorten_loop (p :: (q :: t).dropLast) acc =
            shorten_loop (q :: t).dropLast (acc ++ String.singleton c ++ "-") := by
          simp [shorten_loop, String.toList, hc]
        rw [hloop, ih (acc ++ String.singleton c ++ "-")]
        cases habb : abbreviate_spec_parts (q :: t) with
        | none => simp [abbreviate_spec_parts, String.toList, hc, habb]
        | some tail => simp [abbreviate_spec_parts, String.toList, hc, habb, String.append_assoc]

lemma shorten_eq_abbreviate_spec (component : String) :
    shorten_component_name component = abbreviate_spec component := by
  rw [shorten_eq_bind, shorten_loop_abbrev, abbreviate_spec]
  cases habb : abbreviate_spec_parts (pysplit component) with
  | none => simp
  | some tail => simp

lemma pySplitChar_ne_nil (sep : Char) (l : List Char) : pySplitChar sep l ≠ [] := by
  cases l with
  | nil => simp [pySplitChar]
  | cons c rest =>
    simp only [pySplitChar]
    by_cases h : c = sep
    · simp [h]
    · simp only [h, if_false]
      cases hps : pySplitChar sep rest <;> simp

lemma pysplit_ne_nil (s : String) : pysplit s ≠ [] := by
  intro h
  exact pySplitChar_ne_nil hyphen s.toList (by simpa [pysplit] using h)

lemma shorten_loop_isSome (parts : List String) (h : ∀ p ∈ parts, p ≠ "") :
    ∀ acc, (shorten_loop parts acc).isSome = true := by
  induction parts with
  | nil => intro acc; simp [shorten_loop]
  | cons p rest ih =>
    intro acc
    have hp : p ≠ "" := h p (by simp)
    have hhead : p.toList.head?.isSome = true := by
      cases hl : p.toList with
      | nil => exact absurd (String.ext (by simpa using hl)) hp
      | cons c cs => simp
    obtain ⟨c, hc⟩ := Option.isSome_iff_exists.mp hhead
    simp only [shorten_loop, hc]
    exact ih (fun q hq => h q (by simp [hq])) _

/-- Every registry entry abbreviates without failure. -/
lemma repo_all_shorten_isSome : ∀ c ∈ REPO_LIST_ALL, (shorten_component_name c).isSome = true := by
  decide

/-- Round-trip over the whole registry, shared by several results. -/
lemma roundtrip_all : ∀ n ∈ REPO_LIST_ALL,
    (shorten_component_name n).map find_standard_component_name = some (Except.ok n) := by
  decide

/-- C1: for every name in REPO_LIST_ALL, resolving its abbreviation
yields the name back, and in particular "r-server", "r-j-controller"
and "reana" resolve to "reana-server", "reana-job-controller" and
"reana" respectively. -/
theorem C1_roundtrip :
    (∀ n ∈ REPO_LIST_ALL,
      (shorten_component_name n).map find_standard_component_name = some (Except.ok n)) ∧
    find_standard_component_name "r-server" = Except.ok "reana-server" ∧
    find_standard_component_name "r-j-controller" = Except.ok "reana-job-controller" ∧
    find_standard_component_name "reana" = Except.ok "reana" :=
  ⟨roundtrip_all, by decide, by decide, by decide⟩

/-- Witness for C1 at the concrete registry entry "reana-server". -/
theorem C1_roundtrip_witness :
    "reana-server" ∈ REPO_LIST_ALL ∧
    (shorten_component_name "reana-server").map find_standard_component_name =
      some (Except.ok "reana-server") :=
  ⟨by decide, C1_roundtrip.1 "reana-server" (by decide)⟩

/-- C2: the abbreviation function is injective over the registry: no
two distinct registry names share an abbreviation. -/
theorem C2_shorten_injective :
    ∀ n1 ∈ REPO_LIST_ALL, ∀ n2 ∈ REPO_LIST_ALL, n1 ≠ n2 →
      shorten_component_name n1 ≠ shorten_component_name n2 := by
  decide

/-- Witness for C2 at the concrete pair "reana-server", "reana-client". -/
theorem C2_shorten_injective_witness :
    "reana-server" ∈ REPO_LIST_ALL ∧ "reana-client" ∈ REPO_LIST_ALL ∧
    "reana-server" ≠ "reana-client" ∧
    shorten_component_name "reana-server" ≠ shorten_component_name "reana-client" :=
  ⟨by decide, by decide, by decide,
    C2_shorten_injective "reana-server" (by decide) "reana-client" (by decide) (by decide)⟩

/-- C3: `shorten_component_name` implements the stated abbreviation
rule (split on hyphen, first character of every part but the last, each
followed by a hyphen, then the unmodified last part), and maps "",
"reana" and "reana-job-controller" to "", "reana" and
"r-j-controller". -/
theorem C3_abbreviation_rule :
    (∀ component : String, shorten_component_name component = abbreviate_spec component) ∧
    shorten_component_name "" = some "" ∧
    shorten_component_name "reana" = some "reana" ∧
    shorten_component_name "reana-job-controller" = some "r-j-controller" :=
  ⟨shorten_eq_abbreviate_spec, by decide, by decide, by decide⟩

/-- C4 counterexample: `shorten_component_name` is not total over
arbitrary strings; on "-" the Python code raises IndexError (the first
hyphen-separated part is empty, so part[0] fails), modelled here by
`none`. -/
theorem C4_counterexample : shorten_component_name "-" = none := by decide

/-- C4 (amended): `shorten_component_name` is pure and returns a result
on every input whose hyphen-separated parts before the last are all
non-empty, and the empty string maps to the empty string; inputs with
an empty non-last part raise IndexError instead. -/
theorem C4_totality_on_wellformed :
    (∀ component : String,
      (∀ part ∈ (pysplit component).dropLast, part ≠ "") →
      (shorten_component_name component).isSome = true) ∧
    shorten_component_name "" = some "" := by
  constructor
  · intro component h
    obtain ⟨s, hs⟩ := Option.isSome_iff_exists.mp
      (shorten_loop_isSome (pysplit component).dropLast h "")
    have hne := pysplit_ne_nil component
    obtain ⟨last, hlast⟩ := Option.isSome_iff_exists.mp
      ((List.getLast?_isSome).mpr hne)
    simp [shorten_component_name, hs, hlast]
  · decide

/-- Witness for C4 at the concrete input "reana-job-controller". -/
theorem C4_totality_witness :
    (∀ part ∈ (pysplit "reana-job-controller").dropLast, part ≠ "") ∧
    (shorten_component_name "reana-job-controller").isSome = true :=
  ⟨by decide, C4_totality_on_wellformed.1 "reana-job-controller" (by decide)⟩

lemma find_loop_filter (s : String) (l : List String)
    (h : ∀ c ∈ l, (shorten_component_name c).isSome = true) :
    ∀ acc, find_loop s l acc =
      Except.ok (acc ++ l.filter (fun c => shorten_component_name c == some s)) := by
  induction l with
  | nil => intro acc; simp [find_loop]
  | cons c rest ih =>
    intro acc
    obtain ⟨v, hv⟩ := Option.isSome_iff_exists.mp (h c (by simp))
    have hrest : ∀ x ∈ rest, (shorten_component_name x).isSome = true :=
      fun x hx => h x (by simp [hx])
    simp only [find_loop, hv]
    by_cases heq : v = s
    · subst heq
      rw [if_pos rfl, ih hrest]
      simp [List.filter_cons, hv]
    · rw [if_neg heq, ih hrest]
      simp [List.filter_cons, hv, heq]

/-- Characterization of `find_standard_component_name`: it is the
singleton-or-error view of the in-order filter of the registry by
abbreviation equality. -/
lemma find_spec (s : String) :
    find_standard_component_name s =
      match REPO_LIST_ALL.filter (fun c => shorten_component_name c == some s) with
      | [o] => Except.ok o
      | _ => Except.error cannotBeUniquelyMapped := by
  have h := find_loop_filter s REPO_LIST_ALL repo_all_shorten_isSome []
  unfold find_standard_component_name
  rw [h]
  cases hfl : REPO_LIST_ALL.filter (fun c => shorten_component_name c == some s) with
  | nil => rfl
  | cons o rest =>
    cases rest with
    | nil => rfl
    | cons o2 t2 => rfl

lemma find_ok_mem {s r : String} (h : find_standard_component_name s = Except.ok r) :
    r ∈ REPO_LIST_ALL := by
  rw [find_spec s] at h
  cases hfl : REPO_LIST_ALL.filter (fun c => shorten_component_name c == some s) with
  | nil => rw [hfl] at h; cases h
  | cons o rest =>
    cases rest with
    | nil =>
      rw [hfl] at h
      have hor : o = r := by simpa using h
      have ho : o ∈ REPO_LIST_ALL.filter (fun c => shorten_component_name c == some s) := by
        rw [hfl]; simp
      exact hor ▸ List.mem_of_mem_filter ho
    | cons o2 t2 => rw [hfl] at h; cases h

/-- C5: `find_standard_component_name` scans the registry in order
collecting every entry whose abbreviation equals the input, returns the
entry exactly when one entry matches, and raises the one merged error
for zero as well as for two or more matches. -/
theorem C5_find_characterization (s : String) :
    find_standard_component_name s =
      match REPO_LIST_ALL.filter (fun c => shorten_component_name c == some s) with
      | [o] => Except.ok o
      | _ => Except.error cannotBeUniquelyMapped :=
  find_spec s

/-- C6: at an input with no match, `find_standard_component_name`
raises the fixed message formatting the literal text
"short_component_name" (the quoted variable name in the source), so the
message never contains the offending input: no decomposition of it has
"xyz" as its middle. -/
theorem C6_error_message_fixed :
    find_standard_component_name "xyz" = Except.error cannotBeUniquelyMapped ∧
    (∀ a b : String, cannotBeUniquelyMapped ≠ a ++ "xyz" ++ b) := by
  constructor
  · decide
  · intro a b hcontra
    have h1 : (Char.ofNat 120) ∈ ("xyz" : String).data := by decide
    have hmem : (Char.ofNat 120) ∈ (a ++ "xyz" ++ b).data := by
      rw [String.data_append, String.data_append]
      exact List.mem_append.mpr (Or.inl (List.mem_append.mpr (Or.inr h1)))
    rw [← hcontra] at hmem
    exact absurd hmem (by decide)

/-- Any string whose image is among the registry abbreviations resolves
successfully. -/
lemma shorts_resolve (t : String)
    (h : (some t) ∈ REPO_LIST_ALL.map shorten_component_name) :
    ∃ r, find_standard_component_name t = Except.ok r := by
  obtain ⟨n, hn, hshort⟩ := List.mem_map.mp h
  have hrt := roundtrip_all n hn
  rw [hshort] at hrt
  exact ⟨n, by simpa using hrt⟩

lemma select_loop_isOk (cwd : String) :
    ∀ toks out w, ∃ res,
      select_loop cwd (REPO_LIST_ALL.map shorten_component_name) toks out w = Except.ok res := by
  intro toks
  induction toks with
  | nil => intro out w; exact ⟨(out, w), rfl⟩
  | cons t rest ih =>
    intro out w
    by_cases h1 : t = "ALL"
    · simp only [select_loop, h1, if_true, eq_self_iff_true]
      exact ih _ _
    · by_cases h2 : t = "CLUSTER"
      · simp only [select_loop, h1, h2, if_true, if_false, eq_self_iff_true, ite_false, ite_true]
        exact ih _ _
      · by_cases h3 : t = "."
        · simp only [select_loop, h1, h2, h3, eq_self_iff_true, ite_false, ite_true]
          exact ih _ _
        · by_cases h4 : t ∈ REPO_LIST_ALL
          · simp only [select_loop, h1, h2, h3, h4, ite_false, ite_true, if_true, if_false]
            exact ih _ _
          · by_cases h5 : (some t) ∈ REPO_LIST_ALL.map shorten_component_name
            · simp only [select_loop, h1, h2, h3, h4, h5, ite_false, ite_true, if_true, if_false]
              obtain ⟨r, hr⟩ := shorts_resolve t h5
              rw [hr]
              exact ih _ _
            · simp only [select_loop, h1, h2, h3, h4, h5, ite_false, ite_true, if_false]
              exact ih _ _

lemma select_loop_warn_shift (cwd : String) (shorts : List (Option String)) :
    ∀ toks out w, select_loop cwd shorts toks out w =
      (select_loop cwd shorts toks out []).map (fun r => (r.1, w ++ r.2)) := by
  intro toks
  induction toks with
  | nil => intro out w; simp [select_loop, Except.map]
  | cons t rest ih =>
    intro out w
    by_cases h1 : t = "ALL"
    · simp only [select_loop, h1, eq_self_iff_true, if_true, ite_true]
      exact ih _ _
    · by_cases h2 : t = "CLUSTER"
      · simp only [select_loop, h1, h2, eq_self_iff_true, ite_false, ite_true]
        exact ih _ _
      · by_cases h3 : t = "."
        · simp only [select_loop, h1, h2, h3, eq_self_iff_true, ite_false, ite_true]
          exact ih _ _
        · by_cases h4 : t ∈ REPO_LIST_ALL
          · simp only [select_loop, h1, h2, h3, h4, ite_false, ite_true]
            exact ih _ _
          · by_cases h5 : (some t) ∈ shorts
            · simp only [select_loop, h1, h2, h3, h4, h5, ite_false, ite_true]
              cases hf : find_standard_component_name t with
              | error e => simp [Except.map]
              | ok std => exact ih _ _
            · simp only [select_loop, h1, h2, h3, h4, h5, ite_false]
              rw [ih _ (w ++ [ignoringUnknownMsg t]), ih _ ([] ++ [ignoringUnknownMsg t])]
              cases hres : select_loop cwd shorts rest out [] with
              | error e => simp [Except.map]
              | ok r => simp [Except.map, List.append_assoc]

/-- C7: with this registry, `select_components` never fails: every
token list yields a result; an unrecognized head token contributes
nothing to the component set and exactly one warning line, with the
remaining tokens processed as before; in particular the tokens
"nonsense" and "reana" yield exactly the set containing "reana" with
exactly one warning. -/
theorem C7_unrecognized_token_skipped :
    (∀ tokens cwd, ∃ res, select_components tokens cwd = Except.ok res) ∧
    (∀ t rest cwd, t ≠ "ALL" → t ≠ "CLUSTER" → t ≠ "." →
      t ∉ REPO_LIST_ALL →
      (some t) ∉ REPO_LIST_ALL.map shorten_component_name →
      select_components (t :: rest) cwd =
        (select_components rest cwd).map (fun r => (r.1, ignoringUnknownMsg t :: r.2))) ∧
    (∀ cwd, select_components ["nonsense", "reana"] cwd =
      Except.ok (["reana"], [ignoringUnknownMsg "nonsense"])) := by
  refine ⟨fun tokens cwd => select_loop_isOk cwd tokens [] [], ?_, fun cwd => rfl⟩
  intro t rest cwd h1 h2 h3 h4 h5
  show select_loop cwd (REPO_LIST_ALL.map shorten_component_name) (t :: rest) [] [] = _
  simp only [select_loop, h1, h2, h3, h4, h5, ite_false]
  rw [select_loop_warn_shift cwd _ rest [] ([] ++ [ignoringUnknownMsg t])]
  rfl

/-- Witness for C7 at the concrete unrecognized token "nonsense". -/
theorem C7_unrecognized_token_skipped_witness :
    select_components ["nonsense", "reana-client"] "workdir" =
      (select_components ["reana-client"] "workdir").map
        (fun r => (r.1, ignoringUnknownMsg "nonsense" :: r.2)) :=
  C7_unrecognized_token_skipped.2.1 "nonsense" ["reana-client"] "workdir"
    (by decide) (by decide) (by decide) (by decide) (by decide)

lemma setAdd_mem {out : List String} {r x : String} (h : x ∈ setAdd out r) :
    x ∈ out ∨ x = r := by
  unfold setAdd at h
  split at h
  · exact Or.inl h
  · rcases List.mem_append.mp h with h1 | h2
    · exact Or.inl h1
    · exact Or.inr (by simpa using h2)

lemma foldl_setAdd_mem {l out : List String} {x : String} (h : x ∈ l.foldl setAdd out) :
    x ∈ out ∨ x ∈ l := by
  induction l generalizing out with
  | nil => exact Or.inl h
  | cons a rest ih =>
    rw [List.foldl_cons] at h
    rcases ih h with h1 | h2
    · rcases setAdd_mem h1 with h3 | h4
      · exact Or.inl h3
      · exact Or.inr (by simp [h4])
    · exact Or.inr (by simp [h2])

lemma cluster_subset_all : ∀ x ∈ REPO_LIST_CLUSTER, x ∈ REPO_LIST_ALL := by decide

lemma select_loop_mem_all (cwd : String) (shorts : List (Option String)) :
    ∀ toks out w res wres, "." ∉ toks → (∀ x ∈ out, x ∈ REPO_LIST_ALL) →
      select_loop cwd shorts toks out w = Except.ok (res, wres) →
      ∀ x ∈ res, x ∈ REPO_LIST_ALL := by
  intro toks
  induction toks with
  | nil =>
    intro out w res wres hdot hout h
    obtain ⟨h1, h2⟩ : out = res ∧ w = wres := by
      simpa [select_loop, Prod.ext_iff] using h
    exact h1 ▸ hout
  | cons t rest ih =>
    intro out w res wres hdot hout h
    have hdt : t ≠ "." := fun hc => hdot (by simp [hc])
    have hdrest : "." ∉ rest := fun hc => hdot (by simp [hc])
    by_cases h1 : t = "ALL"
    · simp only [select_loop, h1, eq_self_iff_true, ite_true] at h
      refine ih _ _ _ _ hdrest (fun x hx => ?_) h
      exact (foldl_setAdd_mem hx).elim (hout x) id
    · by_cases h2 : t = "CLUSTER"
      · simp only [select_loop, h1, h2, eq_self_iff_true, ite_false, ite_true] at h
        refine ih _ _ _ _ hdrest (fun x hx => ?_) h
        exact (foldl_setAdd_mem hx).elim (hout x) (cluster_subset_all x)
      · by_cases h4 : t ∈ REPO_LIST_ALL
        · simp only [select_loop, h1, h2, hdt, h4, ite_false, ite_true] at h
          refine ih _ _ _ _ hdrest (fun x hx => ?_) h
          exact (setAdd_mem hx).elim (hout x) (fun he => he ▸ h4)
        · by_cases h5 : (some t) ∈ shorts
          · simp only [select_loop, h1, h2, hdt, h4, h5, ite_false, ite_true] at h
            cases hf : find_standard_component_name t with
            | error e => rw [hf] at h; cases h
            | ok std =>
              rw [hf] at h
              refine ih _ _ _ _ hdrest (fun x hx => ?_) h
              exact (setAdd_mem hx).elim (hout x) (fun he => he ▸ find_ok_mem hf)
          · simp only [select_loop, h1, h2, hdt, h4, h5, ite_false] at h
            exact ih _ _ _ _ hdrest hout h

/-- C8: when no token is ".", every component selected by
`select_components` is a registry member, and the cluster registry is
contained in the full registry. -/
theorem C8_selection_within_registry :
    (∀ tokens cwd res wres, "." ∉ tokens →
      select_components tokens cwd = Except.ok (res, wres) →
      ∀ x ∈ res, x ∈ REPO_LIST_ALL) ∧
    (∀ x ∈ REPO_LIST_CLUSTER, x ∈ REPO_LIST_ALL) :=
  ⟨fun tokens cwd res wres hdot h =>
    select_loop_mem_all cwd (REPO_LIST_ALL.map shorten_component_name)
      tokens [] [] res wres hdot (by simp) h,
   cluster_subset_all⟩

/-- Witness for C8 at the token list containing only "CLUSTER". -/
theorem C8_selection_within_registry_witness :
    "." ∉ (["CLUSTER"] : List String) ∧ "reana-server" ∈ REPO_LIST_ALL :=
  ⟨by decide,
    C8_selection_within_registry.1 ["CLUSTER"] "workdir" REPO_LIST_CLUSTER []
      (by decide) rfl "reana-server" (by decide)⟩

/-- C9: expanding "ALL" then the already-covered token "reana" yields
exactly the registry with no duplicate and no extra element (and no
warning). -/
theorem C9_all_expansion_idempotent :
    (∀ cwd, select_components ["ALL", "reana"] cwd = Except.ok (REPO_LIST_ALL, [])) ∧
    REPO_LIST_ALL.Nodup :=
  ⟨fun _ => rfl, by decide⟩

/-- C10: group-keyword matching is exact and case-sensitive: the
lowercase tokens "all" and "cluster" match nothing, so each yields the
empty selection and exactly one unrecognized-token warning. -/
theorem C10_group_keywords_case_sensitive :
    (∀ cwd, select_components ["all"] cwd =
      Except.ok ([], [ignoringUnknownMsg "all"])) ∧
    (∀ cwd, select_components ["cluster"] cwd =
      Except.ok ([], [ignoringUnknownMsg "cluster"])) :=
  ⟨fun _ => rfl, fun _ => rfl⟩

end Reana
